import Mathlib

/-!
Verification of the breath-detection pipeline in `src/script.js`.

The pipeline has four parts, shallowly embedded below:
* feature extraction (`computeRMS`, `computeHighFreqAvg`) over byte buffers
  (`Uint8Array` samples, modelled as `List (Fin 256)`), with exact rational /
  real arithmetic standing in for the script's floating point;
* the classifier decision rule of `isBlowing`, a pure function of the
  extracted feature pair and the calibrated baseline;
* the baseline computation at the end of `calibrate` (sort ascending, take
  the element at index `floor(n/2)`, defaulting to `0`);
* the per-frame detection tick of `loopDetect`, a guarded state machine over
  the session state (`baselineRMS`, `baselineHF`, `calibrated`, and whether
  the candle element carries the terminal "out" class).
-/

/-- Unsigned 8-bit sample, the element type of the script's `Uint8Array`
time-domain and frequency-domain buffers. -/
abbrev Byte := Fin 256

/-- Squared centered sample of `computeRMS`'s loop body:
`v = (uint8[i] - 128) / 128`, contributing `v * v` to `sumSq`. -/
def centeredSq (v : Byte) : ℚ := ((((v : ℕ) : ℚ) - 128) / 128) ^ 2

/-- Mean of the squared centered samples accumulated by `computeRMS`:
`sumSq / uint8.length`. -/
def meanSq (uint8 : List Byte) : ℚ :=
  ((uint8.map centeredSq).sum) / (uint8.length : ℚ)

/-- Embeds `computeRMS(uint8) = Math.sqrt(sumSq / uint8.length) * 100`.
On an empty buffer the script divides `0 / 0`, producing `NaN`, which is
modelled by `none`; on a non-empty buffer the result is the real number
`Real.sqrt (meanSq uint8) * 100`. -/
noncomputable def computeRMS (uint8 : List Byte) : Option ℝ :=
  if uint8.length = 0 then none
  else some (Real.sqrt ((meanSq uint8 : ℚ) : ℝ) * 100)

/-- Embeds `Math.floor(freqData.length * 0.35)`, the first index of the
high-frequency sub-band (exact-arithmetic reading of the float product). -/
def hfStart (L : ℕ) : ℕ := L * 35 / 100

/-- Embeds `Math.floor(freqData.length * 0.9)`, the end (exclusive) of the
high-frequency sub-band. -/
def hfEnd (L : ℕ) : ℕ := L * 90 / 100

/-- Embeds `computeHighFreqAvg(freqData)`: the loop sums `freqData[i]` for
`i` from `start` to `end - 1` and counts the iterations in `n`; the result
is `n ? sum / n : 0`.  The iterated indices are exactly the elements of the
slice `[hfStart L, hfEnd L)` of the buffer (always in bounds since
`hfEnd L ≤ L`). -/
def computeHighFreqAvg (freqData : List Byte) : ℚ :=
  let start := hfStart freqData.length
  let stop := hfEnd freqData.length
  let band := (freqData.drop start).take (stop - start)
  let n := band.length
  if n = 0 then 0 else ((band.map fun v : Byte => ((v : ℕ) : ℚ)).sum) / (n : ℚ)

/-- Feature pair extracted from one frame: `energy` is the RMS level
(`computeRMS`), `tilt` the high-band average (`computeHighFreqAvg`). -/
structure FeaturePair where
  energy : ℚ
  tilt : ℚ
deriving DecidableEq

/-- Calibrated noise-floor baseline: the script's `baselineRMS` and
`baselineHF` globals, paired. -/
structure Baseline where
  energy : ℚ
  tilt : ℚ
deriving DecidableEq

/-- Embeds the decision rule of `isBlowing` as a pure function of the
extracted features and the baseline:
`rmsThresh = max(baselineRMS + 5, 10)`, `hfThresh = max(baselineHF + 6, 14)`,
`hissStrong = hf > baselineHF + 18`,
`combined = hf > hfThresh && (rms > rmsThresh || rms > baselineRMS + 12)`,
returning `hissStrong || combined`. -/
def isBlowing (features : FeaturePair) (baseline : Baseline) : Bool :=
  let rmsThresh := max (baseline.energy + 5) 10
  let hfThresh := max (baseline.tilt + 6) 14
  let hissStrong := decide (features.tilt > baseline.tilt + 18)
  let combined := decide (features.tilt > hfThresh) &&
    (decide (features.energy > rmsThresh) || decide (features.energy > baseline.energy + 12))
  hissStrong || combined

/-- C1: the classifier returns `true` iff `tilt > baseline.tilt + 18`, or
`tilt > max(baseline.tilt + 6, 14)` and (`energy > max(baseline.energy + 5, 10)`
or `energy > baseline.energy + 12`); with baseline `{0, 0}`, input
`{energy := 0, tilt := 19}` yields `true` and `{energy := 0, tilt := 18}`
yields `false`. -/
theorem isBlowing_decision_rule :
    (∀ (f : FeaturePair) (b : Baseline),
      isBlowing f b = true ↔
        (f.tilt > b.tilt + 18 ∨
          (f.tilt > max (b.tilt + 6) 14 ∧
            (f.energy > max (b.energy + 5) 10 ∨ f.energy > b.energy + 12)))) ∧
    isBlowing ⟨0, 19⟩ ⟨0, 0⟩ = true ∧ isBlowing ⟨0, 18⟩ ⟨0, 0⟩ = false := by
  refine ⟨fun f b => ?_, by norm_num [isBlowing], by norm_num [isBlowing]⟩
  simp [isBlowing]

/-- Per-session mutable state of the script: the two baseline globals, the
`calibrated` flag, and whether `onlyCandle`'s class list contains `"out"`
(the terminal triggered marker added by `loopDetect`). -/
structure SessionState where
  baselineRMS : ℚ
  baselineHF : ℚ
  calibrated : Bool
  out : Bool
deriving DecidableEq

/-- Initial session state: `baselineRMS = 0, baselineHF = 0, calibrated =
false`, and the candle not yet blown out. -/
def initialState : SessionState := ⟨0, 0, false, false⟩

/-- Baseline extraction at the end of `calibrate`:
`buf.sort((a,b)=>a-b)` followed by `buf[Math.floor(buf.length/2)] || 0`.
The `|| 0` yields the indexed element when it is present and nonzero, and
`0` when the index is out of range (empty buffer) or the element is `0`;
both cases collapse to `getD` with default `0`, since a present element
equal to `0` coincides with the default. -/
def medianOf (buf : List ℚ) : ℚ :=
  (buf.mergeSort).getD (buf.length / 2) 0

/-- Completion branch of `calibrate`: writes `baselineRMS` and `baselineHF`
from the collected sample sequences and sets `calibrated = true`. -/
def calibrateFinish (rmsBuf hfBuf : List ℚ) (s : SessionState) : SessionState :=
  { s with
    baselineRMS := medianOf rmsBuf
    baselineHF := medianOf hfBuf
    calibrated := true }

/-- Result of one detection tick: the new session state, whether the `"out"`
class was added this tick (the consumer-facing trigger notification), and
whether `isBlowing` was invoked this tick. -/
structure TickResult where
  state : SessionState
  fired : Bool
  classified : Bool
deriving DecidableEq

/-- One iteration of `loopDetect`'s `tick`: when
`!onlyCandle.classList.contains("out") && calibrated`, invoke `isBlowing`
on the frame's features against the stored baseline, and on `true` add the
`"out"` class; otherwise do nothing.  The features extracted from the tick's
frame enter as the parameter `f`. -/
def tick (f : FeaturePair) (s : SessionState) : TickResult :=
  if !s.out && s.calibrated then
    if isBlowing f ⟨s.baselineRMS, s.baselineHF⟩ then
      ⟨{ s with out := true }, true, true⟩
    else ⟨s, false, true⟩
  else ⟨s, false, false⟩

/-- Runs the detection loop over a list of per-frame feature pairs,
returning the final session state and the number of ticks that fired the
trigger notification. -/
def runTicks : List FeaturePair → SessionState → SessionState × ℕ
  | [], s => (s, 0)
  | f :: fs, s =>
    let r := tick f s
    let rest := runTicks fs r.state
    (rest.1, (if r.fired then 1 else 0) + rest.2)

lemma tick_of_out (f : FeaturePair) (s : SessionState) (h : s.out = true) :
    tick f s = ⟨s, false, false⟩ := by
  simp [tick, h]

lemma tick_fired_out (f : FeaturePair) (s : SessionState)
    (h : (tick f s).fired = true) : ((tick f s).state).out = true := by
  unfold tick at *
  split at h
  · split at h
    · simp [*]
    · simp at h
  · simp at h

lemma runTicks_of_out (fs : List FeaturePair) (s : SessionState)
    (h : s.out = true) : runTicks fs s = (s, 0) := by
  induction fs with
  | nil => rfl
  | cons f fs ih => simp [runTicks, tick_of_out f s h, ih]

lemma runTicks_count_le_one (fs : List FeaturePair) (s : SessionState) :
    (runTicks fs s).2 ≤ 1 := by
  induction fs generalizing s with
  | nil => simp [runTicks]
  | cons f fs ih =>
    by_cases hf : (tick f s).fired = true
    · have hout := tick_fired_out f s hf
      simp [runTicks, hf, runTicks_of_out fs _ hout]
    · simp only [Bool.not_eq_true] at hf
      simpa [runTicks, hf] using ih (tick f s).state

/-- C4: over any sequence of detection ticks the trigger notification fires
at most once, and once the `"out"` class is present every further tick is a
guarded no-op: it neither changes the state nor fires the notification nor
invokes the classifier. -/
theorem trigger_fires_at_most_once :
    (∀ (fs : List FeaturePair) (s : SessionState), (runTicks fs s).2 ≤ 1) ∧
    (∀ (f : FeaturePair) (s : SessionState), s.out = true →
      tick f s = ⟨s, false, false⟩) := by
  exact ⟨runTicks_count_le_one, tick_of_out⟩

/-- Closed instance of `trigger_fires_at_most_once`, with the triggered-state
hypothesis discharged on a concrete state. -/
theorem trigger_fires_at_most_once_witness :
    (runTicks [⟨0, 19⟩, ⟨0, 25⟩] initialState).2 ≤ 1 ∧
    (SessionState.out ⟨0, 0, true, true⟩ = true ∧
      tick ⟨0, 19⟩ ⟨0, 0, true, true⟩ = ⟨⟨0, 0, true, true⟩, false, false⟩) :=
  ⟨trigger_fires_at_most_once.1 _ _,
   rfl, trigger_fires_at_most_once.2 ⟨0, 19⟩ ⟨0, 0, true, true⟩ rfl⟩

/-- C5: a detection tick invokes the classifier exactly when the baseline
has been established (`calibrated = true`) and the state is not yet
triggered (`"out"` absent); otherwise classification is skipped entirely
and the tick is a no-op. -/
theorem classifier_precondition :
    ∀ (f : FeaturePair) (s : SessionState),
      ((tick f s).classified = true ↔ (s.calibrated = true ∧ s.out = false)) ∧
      ((tick f s).classified = false → tick f s = ⟨s, false, false⟩) := by
  intro f s
  unfold tick
  rcases hout : s.out <;> rcases hcal : s.calibrated <;>
    rcases hb : isBlowing f ⟨s.baselineRMS, s.baselineHF⟩ <;> simp [hout, hcal, hb]

/-- C9: no detection tick (and hence no classification) ever mutates the
baseline values or the `calibrated` flag; running any number of ticks
leaves `baselineRMS`, `baselineHF` and `calibrated` unchanged, and the
one-shot calibration step is the operation that writes them. -/
theorem baseline_immutable_after_calibration :
    (∀ (f : FeaturePair) (s : SessionState),
      ((tick f s).state).baselineRMS = s.baselineRMS ∧
      ((tick f s).state).baselineHF = s.baselineHF ∧
      ((tick f s).state).calibrated = s.calibrated) ∧
    (∀ (fs : List FeaturePair) (s : SessionState),
      ((runTicks fs s).1).baselineRMS = s.baselineRMS ∧
      ((runTicks fs s).1).baselineHF = s.baselineHF ∧
      ((runTicks fs s).1).calibrated = s.calibrated) ∧
    (∀ (rmsBuf hfBuf : List ℚ) (s : SessionState),
      (calibrateFinish rmsBuf hfBuf s).baselineRMS = medianOf rmsBuf ∧
      (calibrateFinish rmsBuf hfBuf s).baselineHF = medianOf hfBuf ∧
      (calibrateFinish rmsBuf hfBuf s).calibrated = true) := by
  have htick : ∀ (f : FeaturePair) (s : SessionState),
      ((tick f s).state).baselineRMS = s.baselineRMS ∧
      ((tick f s).state).baselineHF = s.baselineHF ∧
      ((tick f s).state).calibrated = s.calibrated := by
    intro f s
    unfold tick
    rcases hout : s.out <;> rcases hcal : s.calibrated <;>
      rcases hb : isBlowing f ⟨s.baselineRMS, s.baselineHF⟩ <;> simp [hout, hcal, hb]
  refine ⟨htick, fun fs => ?_, fun rmsBuf hfBuf s => ⟨rfl, rfl, rfl⟩⟩
  induction fs with
  | nil => intro s; exact ⟨rfl, rfl, rfl⟩
  | cons f fs ih =>
    intro s
    have h1 := htick f s
    have h2 := ih (tick f s).state
    simp only [runTicks]
    exact ⟨h2.1.trans h1.1, h2.2.1.trans h1.2.1, h2.2.2.trans h1.2.2⟩

lemma medianOf_eq_sorted (l s : List ℚ) (hp : l.Perm s)
    (hs : s.Sorted (· ≤ ·)) : medianOf l = s.getD (l.length / 2) 0 := by
  have h1 : l.mergeSort = s :=
    List.eq_of_perm_of_sorted ((List.mergeSort_perm l _).trans hp)
      (List.sorted_mergeSort' l) hs
  rw [medianOf, h1]

/-- C2: each baseline value produced by calibration is the element at index
`floor(n/2)` of the corresponding sample sequence sorted ascending (`0` for
an empty sequence); in particular energy samples `[5,5,5]` give baseline
energy `5` and energy samples `[1,1,1,1,100]` give baseline energy `1`. -/
theorem calibrate_baseline_is_median :
    (∀ (rmsBuf hfBuf : List ℚ) (st : SessionState) (rs hs : List ℚ),
      rmsBuf.Perm rs → rs.Sorted (· ≤ ·) → hfBuf.Perm hs → hs.Sorted (· ≤ ·) →
      (calibrateFinish rmsBuf hfBuf st).baselineRMS = rs.getD (rmsBuf.length / 2) 0 ∧
      (calibrateFinish rmsBuf hfBuf st).baselineHF = hs.getD (hfBuf.length / 2) 0) ∧
    (∀ st : SessionState, (calibrateFinish [] [] st).baselineRMS = 0 ∧
      (calibrateFinish [] [] st).baselineHF = 0) ∧
    (∀ st : SessionState, (calibrateFinish [5, 5, 5] [2, 2, 2] st).baselineRMS = 5 ∧
      (calibrateFinish [5, 5, 5] [2, 2, 2] st).baselineHF = 2) ∧
    (∀ st : SessionState,
      (calibrateFinish [1, 1, 1, 1, 100] [2, 2, 2] st).baselineRMS = 1) := by
  have hmed : ∀ (l s : List ℚ), l.Perm s → s.Sorted (· ≤ ·) →
      medianOf l = s.getD (l.length / 2) 0 := medianOf_eq_sorted
  refine ⟨fun rmsBuf hfBuf st rs hs hpr hsr hph hsh =>
      ⟨hmed rmsBuf rs hpr hsr, hmed hfBuf hs hph hsh⟩,
    fun st => ⟨by simp [calibrateFinish, medianOf], by simp [calibrateFinish, medianOf]⟩,
    fun st => ⟨?_, ?_⟩, fun st => ?_⟩
  · have := hmed [5, 5, 5] [5, 5, 5] (List.Perm.refl _)
      (by simp [List.sorted_cons])
    simpa [calibrateFinish] using this
  · have := hmed [2, 2, 2] [2, 2, 2] (List.Perm.refl _)
      (by simp [List.sorted_cons])
    simpa [calibrateFinish] using this
  · have := hmed [1, 1, 1, 1, 100] [1, 1, 1, 1, 100] (List.Perm.refl _)
      (by norm_num [List.sorted_cons])
    simpa [calibrateFinish] using this

/-- Closed instance of `calibrate_baseline_is_median` on the sequences
`[5,5,5]` and `[2,2,2]`, with the permutation and sortedness hypotheses
discharged concretely. -/
theorem calibrate_baseline_is_median_witness :
    (calibrateFinish [5, 5, 5] [2, 2, 2] initialState).baselineRMS =
      [(5 : ℚ), 5, 5].getD (3 / 2) 0 ∧
    (calibrateFinish [5, 5, 5] [2, 2, 2] initialState).baselineHF =
      [(2 : ℚ), 2, 2].getD (3 / 2) 0 :=
  calibrate_baseline_is_median.1 [5, 5, 5] [2, 2, 2] initialState
    [5, 5, 5] [2, 2, 2] (List.Perm.refl _) (by simp [List.sorted_cons])
    (List.Perm.refl _) (by simp [List.sorted_cons])

/-- C3 fails on the code: for the even-length sample sequence `[1, 2]` the
calibration baseline is `2`, the element at index `n/2 = 1` of the sorted
sequence (the upper median), whereas the element at position
`n/2 - 1 = 0` (the lower median the claim demands) is `1`. -/
theorem calibrate_even_lower_median_counterexample :
    (calibrateFinish [1, 2] [1, 2] initialState).baselineRMS = 2 ∧
    [(1 : ℚ), 2].getD (2 / 2 - 1) 0 = 1 ∧ (2 : ℚ) ≠ 1 := by
  refine ⟨?_, rfl, by norm_num⟩
  have := medianOf_eq_sorted [1, 2] [1, 2] (List.Perm.refl _)
    (by norm_num [List.sorted_cons])
  simpa [calibrateFinish] using this

/-- C3 amended: for every even-length sample sequence (n even, n ≥ 2) the
calibration baseline is the element at index `n/2` of the sequence sorted
ascending — the upper median, not the lower one. -/
theorem calibrate_even_upper_median (l s : List ℚ) (hp : l.Perm s)
    (hs : s.Sorted (· ≤ ·)) (_h2 : 2 ≤ l.length) (_he : Even l.length)
    (st : SessionState) :
    (calibrateFinish l l st).baselineRMS = s.getD (l.length / 2) 0 ∧
    (calibrateFinish l l st).baselineHF = s.getD (l.length / 2) 0 := by
  have := medianOf_eq_sorted l s hp hs
  exact ⟨this, this⟩

/-- Closed instance of `calibrate_even_upper_median` on the sequence
`[1, 2]`, whose baseline is the upper median `2`. -/
theorem calibrate_even_upper_median_witness :
    (calibrateFinish [1, 2] [1, 2] initialState).baselineRMS =
      [(1 : ℚ), 2].getD (2 / 2) 0 ∧
    (calibrateFinish [1, 2] [1, 2] initialState).baselineHF =
      [(1 : ℚ), 2].getD (2 / 2) 0 :=
  calibrate_even_upper_median [1, 2] [1, 2] (List.Perm.refl _)
    (by norm_num [List.sorted_cons]) (by norm_num) (by norm_num) initialState

/-- C6: with energy and baseline fixed, the classifier is monotone
non-decreasing in tilt — raising the tilt can only turn a `false` into a
`true`, never the reverse. -/
theorem isBlowing_tilt_monotone (e t₁ t₂ : ℚ) (b : Baseline) (hle : t₁ ≤ t₂)
    (h : isBlowing ⟨e, t₁⟩ b = true) : isBlowing ⟨e, t₂⟩ b = true := by
  simp only [isBlowing, Bool.or_eq_true, Bool.and_eq_true, decide_eq_true_eq] at h ⊢
  rcases h with h | ⟨h1, h2⟩
  · exact Or.inl (lt_of_lt_of_le h hle)
  · exact Or.inr ⟨lt_of_lt_of_le h1 hle, h2⟩

/-- Closed instance of `isBlowing_tilt_monotone`: tilt `19` triggers at the
zero baseline, and so does the larger tilt `20`. -/
theorem isBlowing_tilt_monotone_witness :
    isBlowing ⟨0, 20⟩ ⟨0, 0⟩ = true :=
  isBlowing_tilt_monotone 0 19 20 ⟨0, 0⟩ (by norm_num)
    (by norm_num [isBlowing])

lemma centeredSq_nonneg (v : Byte) : 0 ≤ centeredSq v := by
  unfold centeredSq
  positivity

lemma centeredSq_le_one (v : Byte) : centeredSq v ≤ 1 := by
  have h0 : (0 : ℚ) ≤ ((v : ℕ) : ℚ) := by positivity
  have h255 : ((v : ℕ) : ℚ) ≤ 255 := by
    have := Nat.lt_succ_iff.mp v.isLt
    exact_mod_cast this
  unfold centeredSq
  rw [div_pow, div_le_one (by norm_num : (0 : ℚ) < 128 ^ 2)]
  nlinarith [mul_nonneg h0 (by linarith : (0 : ℚ) ≤ 255 - ((v : ℕ) : ℚ))]

lemma meanSq_nonneg (td : List Byte) : 0 ≤ meanSq td := by
  unfold meanSq
  refine div_nonneg (List.sum_nonneg fun x hx => ?_) (by positivity)
  rcases List.mem_map.1 hx with ⟨v, _, rfl⟩
  exact centeredSq_nonneg v

lemma meanSq_le_one (td : List Byte) : meanSq td ≤ 1 := by
  unfold meanSq
  rcases eq_or_ne td [] with h | h
  · simp [h]
  · have hlen : (0 : ℚ) < td.length := by
      have : td.length ≠ 0 := by simpa [List.length_eq_zero] using h
      exact_mod_cast Nat.pos_of_ne_zero this
    rw [div_le_one hlen]
    have hb : (td.map centeredSq).sum ≤ (td.map centeredSq).length • (1 : ℚ) :=
      List.sum_le_card_nsmul _ 1 (fun x hx => by
        rcases List.mem_map.1 hx with ⟨v, _, rfl⟩
        exact centeredSq_le_one v)
    rw [List.length_map, nsmul_eq_mul, mul_one] at hb
    exact hb

/-- C7: on well-formed (non-empty) buffers, feature extraction is total and
deterministic: `computeRMS` never yields the `NaN` marker `none`,
`computeHighFreqAvg` always yields a rational value, and equal inputs give
equal outputs. -/
theorem extract_total_deterministic :
    (∀ td : List Byte, td ≠ [] → (computeRMS td).isSome = true) ∧
    (∀ fd : List Byte, ∃ q : ℚ, computeHighFreqAvg fd = q) ∧
    (∀ td₁ td₂ : List Byte, td₁ = td₂ → computeRMS td₁ = computeRMS td₂) ∧
    (∀ fd₁ fd₂ : List Byte, fd₁ = fd₂ →
      computeHighFreqAvg fd₁ = computeHighFreqAvg fd₂) := by
  refine ⟨fun td h => ?_, fun fd => ⟨_, rfl⟩, fun a b h => h ▸ rfl,
    fun a b h => h ▸ rfl⟩
  have hlen : td.length ≠ 0 := by simpa [List.length_eq_zero] using h
  simp [computeRMS, hlen]

/-- Closed instance of `extract_total_deterministic` on the one-sample
buffer `[128]`. -/
theorem extract_total_deterministic_witness :
    ([(128 : Byte)] ≠ ([] : List Byte)) ∧
    (computeRMS [(128 : Byte)]).isSome = true :=
  ⟨by decide, extract_total_deterministic.1 [(128 : Byte)] (by decide)⟩

/-- C8: when the high-frequency sub-band index range
`[floor(0.35 * L), floor(0.9 * L))` is empty, `computeHighFreqAvg` returns
the fallback `0` instead of failing. -/
theorem highFreqAvg_degenerate_zero (fd : List Byte)
    (h : hfEnd fd.length ≤ hfStart fd.length) : computeHighFreqAvg fd = 0 := by
  simp [computeHighFreqAvg, Nat.sub_eq_zero_of_le h]

/-- Closed instance of `highFreqAvg_degenerate_zero`: a length-1 frequency
buffer has an empty sub-band (`floor(0.35) = floor(0.9) = 0`) and tilt `0`. -/
theorem highFreqAvg_degenerate_zero_witness :
    hfEnd [(37 : Byte)].length ≤ hfStart [(37 : Byte)].length ∧
    computeHighFreqAvg [(37 : Byte)] = 0 :=
  ⟨by decide, highFreqAvg_degenerate_zero [(37 : Byte)] (by decide)⟩

lemma highFreqAvg_nonneg (fd : List Byte) : 0 ≤ computeHighFreqAvg fd := by
  unfold computeHighFreqAvg
  dsimp only
  split
  · exact le_refl 0
  · refine div_nonneg (List.sum_nonneg fun x hx => ?_) (by positivity)
    rcases List.mem_map.1 hx with ⟨v, _, rfl⟩
    positivity

lemma highFreqAvg_le_255 (fd : List Byte) : computeHighFreqAvg fd ≤ 255 := by
  unfold computeHighFreqAvg
  dsimp only
  split
  · norm_num
  · rename_i hn
    have hpos : (0 : ℚ) <
        ((fd.drop (hfStart fd.length)).take
          (hfEnd fd.length - hfStart fd.length)).length :=
      by exact_mod_cast Nat.pos_of_ne_zero hn
    rw [div_le_iff₀ hpos]
    have hb := List.sum_le_card_nsmul
      (((fd.drop (hfStart fd.length)).take
        (hfEnd fd.length - hfStart fd.length)).map fun v : Byte => ((v : ℕ) : ℚ))
      255 (fun x hx => by
        rcases List.mem_map.1 hx with ⟨v, _, rfl⟩
        show ((v : ℕ) : ℚ) ≤ 255
        exact_mod_cast Nat.lt_succ_iff.mp v.isLt)
    rw [List.length_map, nsmul_eq_mul] at hb
    calc (((fd.drop (hfStart fd.length)).take
          (hfEnd fd.length - hfStart fd.length)).map fun v : Byte => ((v : ℕ) : ℚ)).sum
        ≤ (((fd.drop (hfStart fd.length)).take
          (hfEnd fd.length - hfStart fd.length)).length : ℚ) * 255 := hb
      _ = 255 * _ := mul_comm _ _

lemma computeRMS_bounds (td : List Byte) (h : td ≠ []) :
    ∃ r : ℝ, computeRMS td = some r ∧ 0 ≤ r ∧ r ≤ 100 := by
  have hlen : td.length ≠ 0 := by simpa [List.length_eq_zero] using h
  refine ⟨Real.sqrt ((meanSq td : ℚ) : ℝ) * 100, by simp [computeRMS, hlen], ?_, ?_⟩
  · positivity
  · have h1 : ((meanSq td : ℚ) : ℝ) ≤ 1 := by exact_mod_cast meanSq_le_one td
    have h2 : Real.sqrt ((meanSq td : ℚ) : ℝ) ≤ 1 :=
      (Real.sqrt_le_sqrt h1).trans (le_of_eq Real.sqrt_one)
    linarith

/-- C10: for every non-empty byte buffer the energy feature `computeRMS`
lies in the closed interval `[0, 100]`, and for every byte buffer the tilt
feature `computeHighFreqAvg` lies in the closed interval `[0, 255]`. -/
theorem feature_ranges :
    (∀ td : List Byte, td ≠ [] →
      ∃ r : ℝ, computeRMS td = some r ∧ 0 ≤ r ∧ r ≤ 100) ∧
    (∀ fd : List Byte,
      0 ≤ computeHighFreqAvg fd ∧ computeHighFreqAvg fd ≤ 255) :=
  ⟨computeRMS_bounds, fun fd => ⟨highFreqAvg_nonneg fd, highFreqAvg_le_255 fd⟩⟩

/-- Closed instance of `feature_ranges` on the buffers `[0]` and
`[7, 7, 7]`. -/
theorem feature_ranges_witness :
    ([(0 : Byte)] ≠ ([] : List Byte)) ∧
    (∃ r : ℝ, computeRMS [(0 : Byte)] = some r ∧ 0 ≤ r ∧ r ≤ 100) ∧
    (0 ≤ computeHighFreqAvg [(7 : Byte), 7, 7] ∧
      computeHighFreqAvg [(7 : Byte), 7, 7] ≤ 255) :=
  ⟨by decide, feature_ranges.1 [(0 : Byte)] (by decide),
    feature_ranges.2 [(7 : Byte), 7, 7]⟩

/-- Closed instance of `classifier_precondition` on the uncalibrated initial
state, where the tick skips classification and is a no-op. -/
theorem classifier_precondition_witness :
    ((tick ⟨0, 19⟩ initialState).classified = true ↔
      (SessionState.calibrated initialState = true ∧
        SessionState.out initialState = false)) ∧
    tick ⟨0, 19⟩ initialState = ⟨initialState, false, false⟩ :=
  ⟨(classifier_precondition ⟨0, 19⟩ initialState).1,
   (classifier_precondition ⟨0, 19⟩ initialState).2 rfl⟩
